import Mathlib

/-!
# Multiplayer chess server: session and turn synchronisation

A shallow embedding of `src/server.js`.  The single mutable record `gameState`
becomes an explicit value of type `GameState`; every socket handler becomes a
function from the state before the event to the state after it together with
the ordered list of socket.io calls the handler makes.  The chess.js object is
an external collaborator and enters as a parameter `Chess Board Move`.
-/

namespace ChessServer

/-- Identity of a socket.io connection (`socket.id`). -/
abbrev SocketId := Nat

/-- The two colour strings stored in `players[..].color` and `currentTurn`. -/
inductive Color where
  | white
  | black
  deriving DecidableEq, Repr

/-- Value of `chess.turn()`: the characters w and b. -/
inductive Side where
  | w
  | b
  deriving DecidableEq, Repr

/-- One entry of `gameState.players`: the object with fields color and id. -/
structure Player where
  color : Color
  id : SocketId
  deriving DecidableEq, Repr

/-- Payload `moveData` of a make-move message, when it is an object. -/
structure MoveData where
  from_ : String
  to_ : String
  promotion : Option String
  deriving DecidableEq, Repr

/-- The object literal handed to `chess.move` (lines 101-105). -/
structure MoveArg where
  from_ : String
  to_ : String
  promotion : String
  deriving DecidableEq, Repr

/-- What a call of `chess.move` can do: return a move object (truthy), return
null, or throw. -/
inductive MoveResult (Move : Type) where
  | move (m : Move)
  | null
  | throws
  deriving DecidableEq, Repr

/-- The chess.js interface used by the server.  `create` is `new Chess()`;
`move` returns the position after the call next to its result, so that a
library mutating the position on a refused call is not excluded by the type. -/
structure Chess (Board Move : Type) where
  create : Board
  move : Board → MoveArg → Board × MoveResult Move
  fen : Board → String
  turn : Board → Side
  isGameOver : Board → Bool
  inCheck : Board → Bool
  isCheckmate : Board → Bool
  isDraw : Board → Bool

/-- The record `gameState` (lines 19-25). -/
structure GameState (Board : Type) where
  chess : Board
  players : List (SocketId × Player)
  playerCount : Int
  currentTurn : Color
  gameStarted : Bool
  deriving DecidableEq, Repr

/-- The `result` field of game-over: the string draw, or a colour (line 124-127). -/
inductive GameResult where
  | draw
  | winner (c : Color)
  deriving DecidableEq, Repr

/-- The `reason` field of game-over (lines 131-132). -/
inductive Reason where
  | checkmate
  | draw
  | gameOver
  deriving DecidableEq, Repr

/-- Outbound messages with their payloads. -/
inductive Event (Move : Type) where
  | gameFull
  | playerAssigned (color : Color) (fen : String) (currentTurn : Color)
      (playerCount : Int) (gameStarted : Bool)
  | gameStart (fen : String) (currentTurn : Color)
  | playerCountUpdate (playerCount : Int) (gameStarted : Bool)
  | moveMade (move : Move) (fen : String) (currentTurn : Color)
      (gameOver inCheck isCheckmate isDraw : Bool)
  | moveError (message : String)
  | gameOver (result : GameResult) (reason : Reason)
  | gameReset
  | playerDisconnected (playerCount : Int) (gameStarted : Bool)
  deriving DecidableEq, Repr

/-- One socket.io call made by a handler: `socket.join('game-room')`,
`socket.emit(..)` to the sender, or `io.to('game-room').emit(..)`. -/
inductive Out (Move : Type) where
  | joinRoom
  | toSocket (e : Event Move)
  | toRoom (e : Event Move)
  deriving DecidableEq, Repr

/-- Inbound messages, each tagged with the socket that sent it. -/
inductive Inbound where
  | joinGame (id : SocketId)
  | makeMove (id : SocketId) (moveData : Option MoveData)
  | newGame (id : SocketId)
  | disconnect (id : SocketId)
  deriving DecidableEq, Repr

section Players

/-- Read `players[id]`; `none` stands for undefined. -/
def getPlayer : List (SocketId × Player) → SocketId → Option Player
  | [], _ => none
  | (k, p) :: rest, id => if k = id then some p else getPlayer rest id

/-- Assignment `players[id] = p`: an existing key keeps its place and takes the
new value, a new key is added at the end. -/
def setPlayer : List (SocketId × Player) → SocketId → Player → List (SocketId × Player)
  | [], id, p => [(id, p)]
  | (k, q) :: rest, id, p =>
    if k = id then (k, p) :: rest else (k, q) :: setPlayer rest id p

/-- Statement `delete players[id]`. -/
def deletePlayer : List (SocketId × Player) → SocketId → List (SocketId × Player)
  | [], _ => []
  | (k, q) :: rest, id => if k = id then deletePlayer rest id else (k, q) :: deletePlayer rest id

end Players

section Handlers

variable {Board Move : Type}

/-- Initial value of `gameState` (lines 19-25). -/
def initialState (E : Chess Board Move) : GameState Board :=
  { chess := E.create, players := [], playerCount := 0,
    currentTurn := Color.white, gameStarted := false }

/-- Function `resetGame` (lines 28-34): five assignments on the record. -/
def resetGame (E : Chess Board Move) (s : GameState Board) : GameState Board :=
  let s := { s with chess := E.create }
  let s := { s with players := [] }
  let s := { s with playerCount := 0 }
  let s := { s with currentTurn := Color.white }
  { s with gameStarted := false }

/-- Handler of join-game (lines 40-82). -/
def joinGame (E : Chess Board Move) (s : GameState Board) (id : SocketId) :
    GameState Board × List (Out Move) :=
  if s.playerCount ≥ 2 then
    (s, [Out.toSocket Event.gameFull])
  else
    let playerColor := if s.playerCount = 0 then Color.white else Color.black
    let s1 := { s with players := setPlayer s.players id { color := playerColor, id := id } }
    let s2 := { s1 with playerCount := s1.playerCount + 1 }
    let assigned : Out Move := Out.toSocket (Event.playerAssigned playerColor (E.fen s2.chess)
      s2.currentTurn s2.playerCount (decide (s2.playerCount = 2)))
    if s2.playerCount = 2 then
      let s3 := { s2 with gameStarted := true }
      (s3, [Out.joinRoom, assigned,
            Out.toRoom (Event.gameStart (E.fen s3.chess) s3.currentTurn),
            Out.toRoom (Event.playerCountUpdate s3.playerCount s3.gameStarted)])
    else
      (s2, [Out.joinRoom, assigned,
            Out.toRoom (Event.playerCountUpdate s2.playerCount s2.gameStarted)])

/-- Expression `moveData.promotion || 'q'` (line 104): a missing or empty
promotion is replaced by q. -/
def promotionOrQ : Option String → String
  | none => "q"
  | some p => if p = "" then "q" else p

/-- The argument object built at lines 101-105 from the payload. -/
def moveArg (d : MoveData) : MoveArg :=
  { from_ := d.from_, to_ := d.to_, promotion := promotionOrQ d.promotion }

/-- Opposite colour, the conditional of line 109. -/
def switchTurn (c : Color) : Color :=
  if c = Color.white then Color.black else Color.white

/-- The game-over message of lines 124-133 for the position `b`. -/
def gameOverEvent (E : Chess Board Move) (b : Board) : Event Move :=
  let result :=
    if E.isCheckmate b then
      GameResult.winner (if E.turn b = Side.w then Color.black else Color.white)
    else GameResult.draw
  let reason :=
    if E.isCheckmate b then Reason.checkmate
    else if E.isDraw b then Reason.draw else Reason.gameOver
  Event.gameOver result reason

/-- Handler of make-move (lines 85-141).  A payload of `none` is a `moveData`
on which reading `.from` throws (undefined or null). -/
def makeMove (E : Chess Board Move) (s : GameState Board) (id : SocketId)
    (moveData : Option MoveData) : GameState Board × List (Out Move) :=
  match getPlayer s.players id with
  | none => (s, [Out.toSocket (Event.moveError "Game not started or player not found")])
  | some player =>
    if !s.gameStarted then
      (s, [Out.toSocket (Event.moveError "Game not started or player not found")])
    else if player.color ≠ s.currentTurn then
      (s, [Out.toSocket (Event.moveError "Not your turn")])
    else
      match moveData with
      | none => (s, [Out.toSocket (Event.moveError "Invalid move format")])
      | some d =>
        match E.move s.chess (moveArg d) with
        | (b, MoveResult.throws) =>
          ({ s with chess := b }, [Out.toSocket (Event.moveError "Invalid move format")])
        | (b, MoveResult.null) =>
          ({ s with chess := b }, [Out.toSocket (Event.moveError "Invalid move")])
        | (b, MoveResult.move m) =>
          let s1 := { s with chess := b }
          let s2 := { s1 with currentTurn := switchTurn s1.currentTurn }
          let made : Out Move := Out.toRoom (Event.moveMade m (E.fen s2.chess) s2.currentTurn
            (E.isGameOver s2.chess) (E.inCheck s2.chess) (E.isCheckmate s2.chess)
            (E.isDraw s2.chess))
          if E.isGameOver s2.chess then
            (s2, [made, Out.toRoom (gameOverEvent E s2.chess)])
          else
            (s2, [made])

/-- Handler of new-game (lines 144-147). -/
def newGame (E : Chess Board Move) (s : GameState Board) (_id : SocketId) :
    GameState Board × List (Out Move) :=
  (resetGame E s, [Out.toRoom Event.gameReset])

/-- Handler of disconnect (lines 150-167). -/
def disconnect (E : Chess Board Move) (s : GameState Board) (id : SocketId) :
    GameState Board × List (Out Move) :=
  match getPlayer s.players id with
  | none => (s, [])
  | some _ =>
    let s1 := { s with players := deletePlayer s.players id }
    let s2 := { s1 with playerCount := s1.playerCount - 1 }
    if s2.playerCount = 0 then
      (resetGame E s2, [])
    else
      let s3 := { s2 with gameStarted := false }
      (s3, [Out.toRoom (Event.playerDisconnected s3.playerCount s3.gameStarted)])

/-- Dispatch of one inbound message to its handler. -/
def handle (E : Chess Board Move) (s : GameState Board) :
    Inbound → GameState Board × List (Out Move)
  | Inbound.joinGame id => joinGame E s id
  | Inbound.makeMove id d => makeMove E s id d
  | Inbound.newGame id => newGame E s id
  | Inbound.disconnect id => disconnect E s id

/-- State after handling the messages `evs` one after the other from `s`. -/
def run (E : Chess Board Move) (s : GameState Board) : List Inbound → GameState Board
  | [] => s
  | ev :: evs => run E (handle E s ev).1 evs

/-- A state the server can be in: the result of some finite sequence of
inbound messages handled from the initial state. -/
def Reachable (E : Chess Board Move) (s : GameState Board) : Prop :=
  ∃ evs : List Inbound, run E (initialState E) evs = s

/-- The move of a make-move request is accepted when the handler broadcasts
move-made to the room. -/
def isMoveMade : Out Move → Bool
  | Out.toRoom (Event.moveMade _ _ _ _ _ _ _) => true
  | _ => false

/-- Acceptance test for a make-move request in state `s`. -/
def moveAccepted (E : Chess Board Move) (s : GameState Board) (id : SocketId)
    (moveData : Option MoveData) : Bool :=
  (makeMove E s id moveData).2.any isMoveMade

/-- The request passes the checks of lines 86-97. -/
def Authorized (s : GameState Board) (id : SocketId) : Prop :=
  ∃ p, getPlayer s.players id = some p ∧ s.gameStarted = true ∧ p.color = s.currentTurn

/-- Counter invariant: the counter is never below the number of entries and
never above two. -/
def CountInv (s : GameState Board) : Prop :=
  (s.players.length : Int) ≤ s.playerCount ∧ s.playerCount ≤ 2

/-- The keys of `players` are pairwise distinct, as the keys of an object are. -/
def KeysDistinct (s : GameState Board) : Prop :=
  (s.players.map Prod.fst).Nodup

/-- Agreement between the turn field and the side to move of the position. -/
def TurnAgrees (E : Chess Board Move) (s : GameState Board) : Prop :=
  s.currentTurn = Color.white ↔ E.turn s.chess = Side.w

/-- The part of the chess.js contract that concerns the side to move: a new
game has white to move, an accepted move changes the side to move, and a
refused call (null or exception) keeps it. -/
structure TurnLawful (E : Chess Board Move) : Prop where
  turn_create : E.turn E.create = Side.w
  turn_move : ∀ b a b2 m, E.move b a = (b2, MoveResult.move m) → E.turn b2 ≠ E.turn b
  turn_refused : ∀ b a b2, E.move b a = (b2, MoveResult.null) ∨
    E.move b a = (b2, MoveResult.throws) → E.turn b2 = E.turn b

/-- Status invariant: the game is marked started only while the counter is 2. -/
def StartedInv (s : GameState Board) : Prop :=
  s.gameStarted = true → s.playerCount = 2

/-- Test for a join-game message. -/
def isJoin : Inbound → Bool
  | Inbound.joinGame _ => true
  | _ => false

/-- The session fields carried by an outbound message equal the fields of the
state `s`: position string, turn, counter and started flag, and for move-made
also the four flags read from the position. -/
def Event.reflects (E : Chess Board Move) (s : GameState Board) : Event Move → Prop
  | Event.playerAssigned _ fen turn count started =>
    fen = E.fen s.chess ∧ turn = s.currentTurn ∧ count = s.playerCount ∧
      started = s.gameStarted
  | Event.gameStart fen turn => fen = E.fen s.chess ∧ turn = s.currentTurn
  | Event.playerCountUpdate count started =>
    count = s.playerCount ∧ started = s.gameStarted
  | Event.moveMade _ fen turn over check mate draw =>
    fen = E.fen s.chess ∧ turn = s.currentTurn ∧ over = E.isGameOver s.chess ∧
      check = E.inCheck s.chess ∧ mate = E.isCheckmate s.chess ∧ draw = E.isDraw s.chess
  | Event.playerDisconnected count started =>
    count = s.playerCount ∧ started = s.gameStarted
  | Event.gameFull => True
  | Event.moveError _ => True
  | Event.gameOver _ _ => True
  | Event.gameReset => True

/-- Lifting of `Event.reflects` to socket.io calls; joining the room carries
no payload. -/
def Out.reflects (E : Chess Board Move) (s : GameState Board) : Out Move → Prop
  | Out.joinRoom => True
  | Out.toSocket e => Event.reflects E s e
  | Out.toRoom e => Event.reflects E s e

/-- Contract of chess.js assumed where a property depends on it: a new game
has white to move, an accepted move changes the side to move, a refused call
(null or exception) keeps it, and a checkmate is a finished game. -/
structure Lawful (E : Chess Board Move) : Prop where
  turn_create : E.turn E.create = Side.w
  turn_move : ∀ b a b2 m, E.move b a = (b2, MoveResult.move m) → E.turn b2 ≠ E.turn b
  turn_refused : ∀ b a b2, E.move b a = (b2, MoveResult.null) ∨
    E.move b a = (b2, MoveResult.throws) → E.turn b2 = E.turn b
  checkmate_gameOver : ∀ b, E.isCheckmate b = true → E.isGameOver b = true

end Handlers

section Toy

/-- A small executable stand-in for chess.js: the position is the number of
moves played; a move with equal squares is refused with null, a move from the
empty square name throws, the fourth move mates and the sixth draws. -/
def toyChess : Chess Nat MoveArg where
  create := 0
  move := fun b a =>
    if a.from_ = "" then (b, MoveResult.throws)
    else if a.from_ = a.to_ then (b, MoveResult.null)
    else (b + 1, MoveResult.move a)
  fen := fun b => String.mk (List.replicate b 'm')
  turn := fun b => if b % 2 = 0 then Side.w else Side.b
  isGameOver := fun b => decide (b = 4) || decide (b = 6)
  inCheck := fun b => decide (b = 3) || decide (b = 4)
  isCheckmate := fun b => decide (b = 4)
  isDraw := fun b => decide (b = 6)

/-- Toy session in which connections 1 and 2 have joined in this order. -/
def twoSeated : GameState Nat :=
  run toyChess (initialState toyChess) [Inbound.joinGame 1, Inbound.joinGame 2]

/-- A payload the toy engine accepts. -/
def e2e4 : Option MoveData := some { from_ := "e2", to_ := "e4", promotion := none }

/-- A payload the toy engine refuses with null. -/
def e2e2 : Option MoveData := some { from_ := "e2", to_ := "e2", promotion := none }

/-- A payload on which the toy engine throws. -/
def noSquare : Option MoveData := some { from_ := "", to_ := "e4", promotion := none }

/-- Toy session after two joins and three accepted moves; the next move mates. -/
def beforeMate : GameState Nat :=
  run toyChess (initialState toyChess)
    [Inbound.joinGame 1, Inbound.joinGame 2, Inbound.makeMove 1 e2e4,
     Inbound.makeMove 2 e2e4, Inbound.makeMove 1 e2e4]

/-- Toy session right after the mating move of connection 2. -/
def afterMate : GameState Nat := (makeMove toyChess beforeMate 2 e2e4).1

/-- Toy session after two joins and five accepted moves; the next move draws. -/
def beforeDraw : GameState Nat :=
  run toyChess (initialState toyChess)
    [Inbound.joinGame 1, Inbound.joinGame 2, Inbound.makeMove 1 e2e4,
     Inbound.makeMove 2 e2e4, Inbound.makeMove 1 e2e4, Inbound.makeMove 2 e2e4,
     Inbound.makeMove 1 e2e4]

/-- Toy session in which only connection 1 has joined. -/
def oneSeated : GameState Nat :=
  run toyChess (initialState toyChess) [Inbound.joinGame 1]

/-- Variant of the toy engine that meets the two side-to-move assumptions
(white first, an accepted move changes the side) but never reports the game
over, not even in the mating position. -/
def silentMateChess : Chess Nat MoveArg where
  create := 0
  move := fun b a =>
    if a.from_ = "" then (b, MoveResult.throws)
    else if a.from_ = a.to_ then (b, MoveResult.null)
    else (b + 1, MoveResult.move a)
  fen := fun b => String.mk (List.replicate b 'm')
  turn := fun b => if b % 2 = 0 then Side.w else Side.b
  isGameOver := fun _ => false
  inCheck := fun b => decide (b = 3) || decide (b = 4)
  isCheckmate := fun b => decide (b = 4)
  isDraw := fun _ => false

/-- Session of `silentMateChess` after two joins and three accepted moves. -/
def silentBeforeMate : GameState Nat :=
  run silentMateChess (initialState silentMateChess)
    [Inbound.joinGame 1, Inbound.joinGame 2, Inbound.makeMove 1 e2e4,
     Inbound.makeMove 2 e2e4, Inbound.makeMove 1 e2e4]

/-- Engine that meets the two side-to-move assumptions (white first, an
accepted move changes the side) but also changes the side to move when it
refuses a call with null; the second position is mate. -/
def flipOnRefusalChess : Chess Nat MoveArg where
  create := 0
  move := fun b a =>
    if a.from_ = a.to_ then (b + 1, MoveResult.null)
    else (b + 1, MoveResult.move a)
  fen := fun b => String.mk (List.replicate b 'm')
  turn := fun b => if b % 2 = 0 then Side.w else Side.b
  isGameOver := fun b => decide (b = 2)
  inCheck := fun b => decide (b = 2)
  isCheckmate := fun b => decide (b = 2)
  isDraw := fun _ => false

/-- Session of `flipOnRefusalChess` after two joins and one request of white
that the engine refused. -/
def afterRefusal : GameState Nat :=
  run flipOnRefusalChess (initialState flipOnRefusalChess)
    [Inbound.joinGame 1, Inbound.joinGame 2, Inbound.makeMove 1 e2e2]

end Toy

section Lemmas
variable {Board Move : Type}

theorem length_setPlayer_le (ps : List (SocketId × Player)) (id : SocketId) (p : Player) :
    (setPlayer ps id p).length ≤ ps.length + 1 := by
  induction ps with
  | nil => simp [setPlayer]
  | cons hd tl ih =>
    obtain ⟨k, q⟩ := hd
    by_cases hk : k = id
    · simp [setPlayer, hk]
    · simp [setPlayer, hk]; omega

theorem length_deletePlayer_le (ps : List (SocketId × Player)) (id : SocketId) :
    (deletePlayer ps id).length ≤ ps.length := by
  induction ps with
  | nil => simp [deletePlayer]
  | cons hd tl ih =>
    obtain ⟨k, q⟩ := hd
    by_cases hk : k = id
    · simp [deletePlayer, hk]; omega
    · simp [deletePlayer, hk]; omega

theorem length_deletePlayer_lt (ps : List (SocketId × Player)) (id : SocketId) (p : Player)
    (h : getPlayer ps id = some p) : (deletePlayer ps id).length + 1 ≤ ps.length := by
  induction ps with
  | nil => simp [getPlayer] at h
  | cons hd tl ih =>
    obtain ⟨k, q⟩ := hd
    by_cases hk : k = id
    · have := length_deletePlayer_le tl id
      simp [deletePlayer, hk]; omega
    · simp [getPlayer, hk] at h
      have := ih h
      simp [deletePlayer, hk]; omega

theorem countInv_initial (E : Chess Board Move) : CountInv (initialState E) := by
  simp [CountInv, initialState]

theorem countInv_resetGame (E : Chess Board Move) (s : GameState Board) :
    CountInv (resetGame E s) := by
  simp [CountInv, resetGame]

theorem countInv_joinGame (E : Chess Board Move) (s : GameState Board) (id : SocketId)
    (h : CountInv s) : CountInv (joinGame E s id).1 := by
  obtain ⟨h1, h2⟩ := h
  unfold joinGame
  by_cases hfull : s.playerCount ≥ 2
  · simp [hfull, CountInv, h1, h2]
  · have hlen := length_setPlayer_le s.players id
      { color := if s.playerCount = 0 then Color.white else Color.black, id := id }
    simp only [hfull, if_false]
    split <;> (simp only [CountInv]; constructor <;> (push_cast at *; omega))

theorem makeMove_unseated (E : Chess Board Move) (s : GameState Board) (id : SocketId)
    (d : Option MoveData) (h : getPlayer s.players id = none) :
    makeMove E s id d =
      (s, [Out.toSocket (Event.moveError "Game not started or player not found")]) := by
  simp [makeMove, h]

theorem makeMove_notStarted (E : Chess Board Move) (s : GameState Board) (id : SocketId)
    (d : Option MoveData) (h : s.gameStarted = false) :
    makeMove E s id d =
      (s, [Out.toSocket (Event.moveError "Game not started or player not found")]) := by
  cases hp : getPlayer s.players id <;> simp [makeMove, h, hp]

theorem makeMove_notTurn (E : Chess Board Move) (s : GameState Board) (id : SocketId)
    (d : Option MoveData) (p : Player) (hp : getPlayer s.players id = some p)
    (hg : s.gameStarted = true) (hc : p.color ≠ s.currentTurn) :
    makeMove E s id d = (s, [Out.toSocket (Event.moveError "Not your turn")]) := by
  simp [makeMove, hp, hg, hc]

theorem makeMove_noPayload (E : Chess Board Move) (s : GameState Board) (id : SocketId)
    (h : Authorized s id) :
    makeMove E s id none = (s, [Out.toSocket (Event.moveError "Invalid move format")]) := by
  obtain ⟨p, hp, hg, hc⟩ := h
  simp [makeMove, hp, hg, hc]

theorem makeMove_throws (E : Chess Board Move) (s : GameState Board) (id : SocketId)
    (d : MoveData) (b : Board) (h : Authorized s id)
    (hm : E.move s.chess (moveArg d) = (b, MoveResult.throws)) :
    makeMove E s id (some d) =
      ({ s with chess := b }, [Out.toSocket (Event.moveError "Invalid move format")]) := by
  obtain ⟨p, hp, hg, hc⟩ := h
  simp [makeMove, hp, hg, hc, hm]

theorem makeMove_null (E : Chess Board Move) (s : GameState Board) (id : SocketId)
    (d : MoveData) (b : Board) (h : Authorized s id)
    (hm : E.move s.chess (moveArg d) = (b, MoveResult.null)) :
    makeMove E s id (some d) =
      ({ s with chess := b }, [Out.toSocket (Event.moveError "Invalid move")]) := by
  obtain ⟨p, hp, hg, hc⟩ := h
  simp [makeMove, hp, hg, hc, hm]

theorem makeMove_move (E : Chess Board Move) (s : GameState Board) (id : SocketId)
    (d : MoveData) (b : Board) (m : Move) (h : Authorized s id)
    (hm : E.move s.chess (moveArg d) = (b, MoveResult.move m)) :
    makeMove E s id (some d) =
      ({ s with chess := b, currentTurn := switchTurn s.currentTurn },
        Out.toRoom (Event.moveMade m (E.fen b) (switchTurn s.currentTurn) (E.isGameOver b)
            (E.inCheck b) (E.isCheckmate b) (E.isDraw b)) ::
          (if E.isGameOver b then [Out.toRoom (gameOverEvent E b)] else [])) := by
  obtain ⟨p, hp, hg, hc⟩ := h
  by_cases ho : E.isGameOver b = true <;> simp [makeMove, hp, hg, hc, hm, ho]

/-- Either the request fails one of the checks of lines 86-97, or it passes
them all. -/
theorem authorized_or_not (s : GameState Board) (id : SocketId) :
    Authorized s id ∨ getPlayer s.players id = none ∨ s.gameStarted = false ∨
      ∃ p, getPlayer s.players id = some p ∧ s.gameStarted = true ∧ p.color ≠ s.currentTurn := by
  obtain hp | ⟨p, hp⟩ := Option.eq_none_or_eq_some (getPlayer s.players id)
  · exact Or.inr (Or.inl hp)
  · obtain hg | hg := Bool.eq_false_or_eq_true s.gameStarted
    · by_cases hc : p.color = s.currentTurn
      · exact Or.inl ⟨p, hp, hg, hc⟩
      · exact Or.inr (Or.inr (Or.inr ⟨p, hp, hg, hc⟩))
    · exact Or.inr (Or.inr (Or.inl hg))


theorem countInv_makeMove (E : Chess Board Move) (s : GameState Board) (id : SocketId)
    (d : Option MoveData) (h : CountInv s) : CountInv (makeMove E s id d).1 := by
  have hf : (makeMove E s id d).1.players = s.players ∧
      (makeMove E s id d).1.playerCount = s.playerCount := by
    rcases authorized_or_not s id with ha | hp | hg | ⟨p, hp, hg, hc⟩
    · cases d with
      | none => simp [makeMove_noPayload E s id ha]
      | some d =>
        rcases hm : E.move s.chess (moveArg d) with ⟨b, r⟩
        cases r with
        | move m => simp [makeMove_move E s id d b m ha hm]
        | null => simp [makeMove_null E s id d b ha hm]
        | throws => simp [makeMove_throws E s id d b ha hm]
    · simp [makeMove_unseated E s id d hp]
    · simp [makeMove_notStarted E s id d hg]
    · simp [makeMove_notTurn E s id d p hp hg hc]
  simpa [CountInv, hf.1, hf.2] using h

theorem countInv_disconnect (E : Chess Board Move) (s : GameState Board) (id : SocketId)
    (h : CountInv s) : CountInv (disconnect E s id).1 := by
  obtain ⟨h1, h2⟩ := h
  unfold disconnect
  cases hp : getPlayer s.players id with
  | none => exact ⟨h1, h2⟩
  | some p =>
    have hlen := length_deletePlayer_lt s.players id p hp
    by_cases h0 : s.playerCount - 1 = 0
    · simp [h0, countInv_resetGame]
    · simp only [h0, if_false, CountInv]
      constructor <;> (push_cast at *; omega)

theorem countInv_handle (E : Chess Board Move) (s : GameState Board) (ev : Inbound)
    (h : CountInv s) : CountInv (handle E s ev).1 := by
  cases ev with
  | joinGame id => exact countInv_joinGame E s id h
  | makeMove id d => exact countInv_makeMove E s id d h
  | newGame id => exact countInv_resetGame E s
  | disconnect id => exact countInv_disconnect E s id h

/-- A property kept by every handler holds along every run. -/
theorem run_preserves (E : Chess Board Move) (P : GameState Board → Prop)
    (hstep : ∀ s ev, P s → P (handle E s ev).1) (evs : List Inbound) :
    ∀ s, P s → P (run E s evs) := by
  induction evs with
  | nil => intro s hs; exact hs
  | cons ev evs ih => intro s hs; exact ih _ (hstep s ev hs)

theorem countInv_run (E : Chess Board Move) (evs : List Inbound) :
    CountInv (run E (initialState E) evs) :=
  run_preserves E CountInv (countInv_handle E) evs _ (countInv_initial E)

/-- Every make-move request ends in one of two ways: a single move-error
to the sender with at most the position touched (and only by the engine), or
the commit of lines 107-134 after the engine returned a move. -/
theorem makeMove_outcome (E : Chess Board Move) (s : GameState Board) (id : SocketId)
    (d : Option MoveData) :
    (moveAccepted E s id d = false ∧
      ∃ b msg, makeMove E s id d =
          ({ s with chess := b }, [Out.toSocket (Event.moveError msg)]) ∧
        (b = s.chess ∨ ∃ a, E.move s.chess a = (b, MoveResult.null) ∨
          E.move s.chess a = (b, MoveResult.throws))) ∨
    (moveAccepted E s id d = true ∧
      ∃ d1 b m, d = some d1 ∧ Authorized s id ∧
        E.move s.chess (moveArg d1) = (b, MoveResult.move m) ∧
        makeMove E s id d =
          ({ s with chess := b, currentTurn := switchTurn s.currentTurn },
            Out.toRoom (Event.moveMade m (E.fen b) (switchTurn s.currentTurn) (E.isGameOver b)
                (E.inCheck b) (E.isCheckmate b) (E.isDraw b)) ::
              (if E.isGameOver b then [Out.toRoom (gameOverEvent E b)] else []))) := by
  rcases authorized_or_not s id with ha | hp | hg | ⟨p, hp, hg, hc⟩
  · cases d with
    | none =>
      exact Or.inl ⟨by simp [moveAccepted, makeMove_noPayload E s id ha, isMoveMade],
        s.chess, _, makeMove_noPayload E s id ha, Or.inl rfl⟩
    | some d =>
      rcases hm : E.move s.chess (moveArg d) with ⟨b, r⟩
      cases r with
      | move m =>
        exact Or.inr ⟨by simp [moveAccepted, makeMove_move E s id d b m ha hm, isMoveMade],
          d, b, m, rfl, ha, hm, makeMove_move E s id d b m ha hm⟩
      | null =>
        exact Or.inl ⟨by simp [moveAccepted, makeMove_null E s id d b ha hm, isMoveMade],
          b, _, makeMove_null E s id d b ha hm, Or.inr ⟨_, Or.inl hm⟩⟩
      | throws =>
        exact Or.inl ⟨by simp [moveAccepted, makeMove_throws E s id d b ha hm, isMoveMade],
          b, _, makeMove_throws E s id d b ha hm, Or.inr ⟨_, Or.inr hm⟩⟩
  · exact Or.inl ⟨by simp [moveAccepted, makeMove_unseated E s id d hp, isMoveMade],
      s.chess, _, makeMove_unseated E s id d hp, Or.inl rfl⟩
  · exact Or.inl ⟨by simp [moveAccepted, makeMove_notStarted E s id d hg, isMoveMade],
      s.chess, _, makeMove_notStarted E s id d hg, Or.inl rfl⟩
  · exact Or.inl ⟨by simp [moveAccepted, makeMove_notTurn E s id d p hp hg hc, isMoveMade],
      s.chess, _, makeMove_notTurn E s id d p hp hg hc, Or.inl rfl⟩

theorem mem_keys_setPlayer (ps : List (SocketId × Player)) (id k : SocketId) (p : Player)
    (h : k ∈ (setPlayer ps id p).map Prod.fst) : k = id ∨ k ∈ ps.map Prod.fst := by
  induction ps with
  | nil => simp [setPlayer] at h; exact Or.inl h
  | cons hd tl ih =>
    obtain ⟨k2, q⟩ := hd
    by_cases hk : k2 = id
    · simp only [setPlayer, hk, if_true, List.map_cons, List.mem_cons] at h ⊢
      rcases h with h | h
      · exact Or.inl h
      · exact Or.inr (Or.inr h)
    · simp only [setPlayer, hk, if_false, List.map_cons, List.mem_cons] at h ⊢
      rcases h with h | h
      · exact Or.inr (Or.inl h)
      · rcases ih h with h2 | h2
        · exact Or.inl h2
        · exact Or.inr (Or.inr h2)

theorem nodup_keys_setPlayer (ps : List (SocketId × Player)) (id : SocketId) (p : Player)
    (h : (ps.map Prod.fst).Nodup) : ((setPlayer ps id p).map Prod.fst).Nodup := by
  induction ps with
  | nil => simp [setPlayer]
  | cons hd tl ih =>
    obtain ⟨k, q⟩ := hd
    simp only [List.map_cons, List.nodup_cons] at h
    by_cases hk : k = id
    · simp only [setPlayer, hk, if_true, List.map_cons, List.nodup_cons]
      exact ⟨hk ▸ h.1, h.2⟩
    · simp only [setPlayer, hk, if_false, List.map_cons, List.nodup_cons]
      refine ⟨fun hmem => ?_, ih h.2⟩
      rcases mem_keys_setPlayer tl id k p hmem with h2 | h2
      · exact hk h2
      · exact h.1 h2

theorem mem_keys_deletePlayer (ps : List (SocketId × Player)) (id k : SocketId)
    (h : k ∈ (deletePlayer ps id).map Prod.fst) : k ∈ ps.map Prod.fst := by
  induction ps with
  | nil => simp [deletePlayer] at h
  | cons hd tl ih =>
    obtain ⟨k2, q⟩ := hd
    by_cases hk : k2 = id
    · simp only [deletePlayer, hk, if_true] at h
      simp only [List.map_cons, List.mem_cons]
      exact Or.inr (ih h)
    · simp only [deletePlayer, hk, if_false, List.map_cons, List.mem_cons] at h ⊢
      rcases h with h | h
      · exact Or.inl h
      · exact Or.inr (ih h)

theorem nodup_keys_deletePlayer (ps : List (SocketId × Player)) (id : SocketId)
    (h : (ps.map Prod.fst).Nodup) : ((deletePlayer ps id).map Prod.fst).Nodup := by
  induction ps with
  | nil => simp [deletePlayer]
  | cons hd tl ih =>
    obtain ⟨k, q⟩ := hd
    simp only [List.map_cons, List.nodup_cons] at h
    by_cases hk : k = id
    · simp only [deletePlayer, hk, if_true]
      exact ih h.2
    · simp only [deletePlayer, hk, if_false, List.map_cons, List.nodup_cons]
      exact ⟨fun hmem => h.1 (mem_keys_deletePlayer tl id k hmem), ih h.2⟩

theorem keysDistinct_handle (E : Chess Board Move) (s : GameState Board) (ev : Inbound)
    (h : KeysDistinct s) : KeysDistinct (handle E s ev).1 := by
  cases ev with
  | joinGame id =>
    simp only [handle, joinGame]
    by_cases hfull : s.playerCount ≥ 2
    · simpa [hfull] using h
    · simp only [hfull, if_false]
      split <;> exact nodup_keys_setPlayer s.players id _ h
  | makeMove id d =>
    rcases makeMove_outcome E s id d with ⟨_, b, msg, hres, _⟩ | ⟨_, d1, b, m, _, _, _, hres⟩
    · simp only [handle, hres]; exact h
    · simp only [handle, hres]; exact h
  | newGame id => simp [handle, newGame, resetGame, KeysDistinct]
  | disconnect id =>
    simp only [handle, disconnect]
    cases hp : getPlayer s.players id with
    | none => exact h
    | some p =>
      by_cases h0 : s.playerCount - 1 = 0
      · simp [h0, resetGame, KeysDistinct]
      · simp only [h0, if_false]
        exact nodup_keys_deletePlayer s.players id h

/-- In every state of a run, `players` has pairwise distinct keys, so the
length of the list is the number of entries of the object. -/
theorem keysDistinct_run (E : Chess Board Move) (evs : List Inbound) :
    KeysDistinct (run E (initialState E) evs) :=
  run_preserves E KeysDistinct (keysDistinct_handle E) evs _
    (by simp [KeysDistinct, initialState])

theorem Lawful.turnLawful {E : Chess Board Move} (hE : Lawful E) : TurnLawful E :=
  ⟨hE.turn_create, hE.turn_move, hE.turn_refused⟩

theorem joinGame_chess_turn (E : Chess Board Move) (s : GameState Board) (id : SocketId) :
    (joinGame E s id).1.chess = s.chess ∧ (joinGame E s id).1.currentTurn = s.currentTurn := by
  unfold joinGame
  by_cases hfull : s.playerCount ≥ 2
  · simp [hfull]
  · simp only [hfull, if_false]
    split <;> exact ⟨rfl, rfl⟩

theorem turnAgrees_resetGame (E : Chess Board Move) (hE : TurnLawful E) (s : GameState Board) :
    TurnAgrees E (resetGame E s) := by
  simp [TurnAgrees, resetGame, hE.turn_create]

theorem turnAgrees_disconnect (E : Chess Board Move) (hE : TurnLawful E) (s : GameState Board)
    (id : SocketId) (h : TurnAgrees E s) : TurnAgrees E (disconnect E s id).1 := by
  unfold disconnect
  cases hp : getPlayer s.players id with
  | none => exact h
  | some p =>
    by_cases h0 : s.playerCount - 1 = 0
    · simp only [h0, if_true]; exact turnAgrees_resetGame E hE _
    · simp only [h0, if_false]; exact h

/-- An accepted move changes the side to move, so flipping the turn field
keeps the two in agreement. -/
theorem turnAgrees_flip (E : Chess Board Move) (c : Color) (b b2 : Board)
    (h : c = Color.white ↔ E.turn b = Side.w) (hne : E.turn b2 ≠ E.turn b) :
    switchTurn c = Color.white ↔ E.turn b2 = Side.w := by
  cases c <;> cases h1 : E.turn b <;> cases h2 : E.turn b2 <;>
    simp_all [switchTurn]

theorem turnAgrees_makeMove (E : Chess Board Move) (hE : TurnLawful E) (s : GameState Board)
    (id : SocketId) (d : Option MoveData) (h : TurnAgrees E s) :
    TurnAgrees E (makeMove E s id d).1 := by
  rcases makeMove_outcome E s id d with ⟨_, b, msg, hres, hb⟩ | ⟨_, d1, b, m, _, _, hm, hres⟩
  · rw [hres]
    rcases hb with hb | ⟨a, ha⟩
    · subst hb; exact h
    · have ht := hE.turn_refused s.chess a b ha
      simpa [TurnAgrees, ht] using h
  · rw [hres]
    exact turnAgrees_flip E s.currentTurn s.chess b h (hE.turn_move s.chess _ b m hm)

theorem turnAgrees_handle (E : Chess Board Move) (hE : TurnLawful E) (s : GameState Board)
    (ev : Inbound) (h : TurnAgrees E s) : TurnAgrees E (handle E s ev).1 := by
  cases ev with
  | joinGame id =>
    obtain ⟨h1, h2⟩ := joinGame_chess_turn E s id
    simpa [handle, TurnAgrees, h1, h2] using h
  | makeMove id d => exact turnAgrees_makeMove E hE s id d h
  | newGame id => exact turnAgrees_resetGame E hE s
  | disconnect id => exact turnAgrees_disconnect E hE s id h

theorem turnAgrees_reachable (E : Chess Board Move) (hE : TurnLawful E) (s : GameState Board)
    (hs : Reachable E s) : TurnAgrees E s := by
  obtain ⟨evs, rfl⟩ := hs
  exact run_preserves E (TurnAgrees E) (turnAgrees_handle E hE) evs _
    (by simp [TurnAgrees, initialState, hE.turn_create])

/-- The side to move of the toy positions alternates with the move count. -/
theorem toy_side_succ_ne (b : Nat) :
    (if (b + 1) % 2 = 0 then Side.w else Side.b) ≠ (if b % 2 = 0 then Side.w else Side.b) := by
  rcases Nat.mod_two_eq_zero_or_one b with hb | hb
  · have : (b + 1) % 2 = 1 := by omega
    simp [hb, this]
  · have : (b + 1) % 2 = 0 := by omega
    simp [hb, this]

theorem silentMateChess_turn_move (b : Nat) (a : MoveArg) (b2 : Nat) (m : MoveArg)
    (h : silentMateChess.move b a = (b2, MoveResult.move m)) :
    silentMateChess.turn b2 ≠ silentMateChess.turn b := by
  simp only [silentMateChess] at h ⊢
  split at h
  · cases h
  · split at h
    · cases h
    · cases h
      exact toy_side_succ_ne b

theorem flipOnRefusalChess_turn_move (b : Nat) (a : MoveArg) (b2 : Nat) (m : MoveArg)
    (h : flipOnRefusalChess.move b a = (b2, MoveResult.move m)) :
    flipOnRefusalChess.turn b2 ≠ flipOnRefusalChess.turn b := by
  simp only [flipOnRefusalChess] at h ⊢
  split at h
  · cases h
  · cases h
    exact toy_side_succ_ne b

theorem toyChess_lawful : Lawful toyChess where
  turn_create := rfl
  turn_move := by
    intro b a b2 m h
    simp only [toyChess] at h ⊢
    split at h
    · cases h
    · split at h
      · cases h
      · cases h
        rcases Nat.mod_two_eq_zero_or_one b with hb | hb
        · have : (b + 1) % 2 = 1 := by omega
          simp [hb, this]
        · have : (b + 1) % 2 = 0 := by omega
          simp [hb, this]
  turn_refused := by
    intro b a b2 h
    simp only [toyChess] at h ⊢
    rcases h with h | h <;> (split at h <;> [skip; split at h]) <;> cases h <;> rfl
  checkmate_gameOver := by
    intro b h
    simp only [toyChess] at h ⊢
    simp_all

theorem startedInv_joinGame (E : Chess Board Move) (s : GameState Board) (id : SocketId)
    (h : StartedInv s) : StartedInv (joinGame E s id).1 := by
  unfold joinGame
  by_cases hfull : s.playerCount ≥ 2
  · simpa [hfull] using h
  · simp only [hfull, if_false]
    by_cases h2 : s.playerCount + 1 = 2
    · simp only [h2, if_true]
      intro _
      rfl
    · simp only [h2, if_false]
      intro hg
      have := h hg
      omega

theorem makeMove_frame (E : Chess Board Move) (s : GameState Board) (id : SocketId)
    (d : Option MoveData) :
    (makeMove E s id d).1.players = s.players ∧
    (makeMove E s id d).1.playerCount = s.playerCount ∧
    (makeMove E s id d).1.gameStarted = s.gameStarted := by
  rcases makeMove_outcome E s id d with ⟨_, b, msg, hres, _⟩ | ⟨_, d1, b, m, _, _, _, hres⟩ <;>
    (rw [hres]; exact ⟨rfl, rfl, rfl⟩)

theorem startedInv_disconnect (E : Chess Board Move) (s : GameState Board) (id : SocketId)
    (h : StartedInv s) : StartedInv (disconnect E s id).1 := by
  unfold disconnect
  cases hp : getPlayer s.players id with
  | none => exact h
  | some p =>
    by_cases h0 : s.playerCount - 1 = 0
    · simp only [h0, if_true]
      intro hg
      simp [resetGame] at hg
    · simp only [h0, if_false]
      intro hg
      cases hg

theorem startedInv_handle (E : Chess Board Move) (s : GameState Board) (ev : Inbound)
    (h : StartedInv s) : StartedInv (handle E s ev).1 := by
  cases ev with
  | joinGame id => exact startedInv_joinGame E s id h
  | makeMove id d =>
    obtain ⟨_, h2, h3⟩ := makeMove_frame E s id d
    simpa [handle, StartedInv, h2, h3] using h
  | newGame id =>
    intro hg
    simp [handle, newGame, resetGame] at hg
  | disconnect id => exact startedInv_disconnect E s id h

theorem startedInv_reachable (E : Chess Board Move) (s : GameState Board)
    (hs : Reachable E s) : StartedInv s := by
  obtain ⟨evs, rfl⟩ := hs
  exact run_preserves E StartedInv (startedInv_handle E) evs _
    (by intro hg; simp [initialState] at hg)

/-- A handler other than join-game never sets the started flag. -/
theorem notStarted_handle (E : Chess Board Move) (s : GameState Board) (ev : Inbound)
    (hj : isJoin ev = false) (h : s.gameStarted = false) :
    (handle E s ev).1.gameStarted = false := by
  cases ev with
  | joinGame id => simp [isJoin] at hj
  | makeMove id d =>
    obtain ⟨_, _, h3⟩ := makeMove_frame E s id d
    simpa [handle, h3] using h
  | newGame id => rfl
  | disconnect id =>
    simp only [handle, disconnect]
    cases hp : getPlayer s.players id with
    | none => exact h
    | some p =>
      by_cases h0 : s.playerCount - 1 = 0
      · simp only [h0, if_true]; rfl
      · simp only [h0, if_false]

theorem notStarted_run (E : Chess Board Move) (evs : List Inbound) :
    ∀ s : GameState Board, evs.all (fun ev => !isJoin ev) = true → s.gameStarted = false →
      (run E s evs).gameStarted = false := by
  induction evs with
  | nil => intro s _ h; exact h
  | cons ev evs ih =>
    intro s hall h
    simp only [List.all_cons, Bool.and_eq_true, Bool.not_eq_true', ] at hall
    exact ih _ hall.2 (notStarted_handle E s ev hall.1 h)

theorem getPlayer_deletePlayer_ne (ps : List (SocketId × Player)) (id k : SocketId)
    (h : k ≠ id) : getPlayer (deletePlayer ps id) k = getPlayer ps k := by
  induction ps with
  | nil => rfl
  | cons hd tl ih =>
    obtain ⟨k2, q⟩ := hd
    by_cases hk : k2 = id
    · have hk2 : ¬ k2 = k := fun e => h (e ▸ hk)
      simp only [deletePlayer, getPlayer, hk, hk2, if_true, if_false]
      rw [← hk, if_neg hk2]
      exact hk ▸ ih
    · by_cases hkk : k2 = k
      · subst hkk
        simp only [deletePlayer, getPlayer, hk, if_true, if_false]
      · simp only [deletePlayer, getPlayer, hk, hkk, if_false, ih]

end Lemmas

section Claims

variable {Board Move : Type}

/-- C1 (fails on the code): when one connection sends join-game twice from the
initial state, the second assignment overwrites its entry while the counter is
incremented again, so `playerCount` is 2 and `players` has a single entry. -/
theorem double_join_count_exceeds_entries (E : Chess Board Move) :
    (run E (initialState E) [Inbound.joinGame 1, Inbound.joinGame 1]).playerCount = 2 ∧
    (run E (initialState E) [Inbound.joinGame 1, Inbound.joinGame 1]).players =
      [(1, { color := Color.black, id := 1 })] ∧
    (run E (initialState E) [Inbound.joinGame 1, Inbound.joinGame 1]).players.length = 1 := by
  refine ⟨rfl, rfl, rfl⟩

/-- C2 (fails on the code): after connections 1 and 2 join, 1 (white) leaves
and 3 joins, the two distinct connections 2 and 3 both hold black and nobody
holds white. -/
theorem rejoin_two_black_seats (E : Chess Board Move) :
    (run E (initialState E) [Inbound.joinGame 1, Inbound.joinGame 2, Inbound.disconnect 1,
        Inbound.joinGame 3]).players =
      [(2, { color := Color.black, id := 2 }), (3, { color := Color.black, id := 3 })] := by
  rfl

/-- C3: an accepted make-move request was made while the game was started, by
a connection that held a seat whose colour was the current turn. -/
theorem accepted_move_was_authorized (E : Chess Board Move) (s : GameState Board)
    (id : SocketId) (d : Option MoveData) (h : moveAccepted E s id d = true) :
    s.gameStarted = true ∧
    ∃ p, getPlayer s.players id = some p ∧ p.color = s.currentTurn := by
  rcases authorized_or_not s id with ⟨p, hp, hg, hc⟩ | hp | hg | ⟨p, hp, hg, hc⟩
  · exact ⟨hg, p, hp, hc⟩
  · simp [moveAccepted, makeMove_unseated E s id d hp, isMoveMade] at h
  · simp [moveAccepted, makeMove_notStarted E s id d hg, isMoveMade] at h
  · simp [moveAccepted, makeMove_notTurn E s id d p hp hg hc, isMoveMade] at h

/-- Witness for C3: white's first move after two joins is accepted. -/
theorem accepted_move_was_authorized_witness :
    moveAccepted toyChess twoSeated 1 e2e4 = true ∧
    twoSeated.gameStarted = true ∧
    ∃ p, getPlayer twoSeated.players 1 = some p ∧ p.color = twoSeated.currentTurn :=
  ⟨by decide, accepted_move_was_authorized toyChess twoSeated 1 e2e4 (by decide)⟩

/-- C4: an accepted make-move request turns white's turn into black's and
black's into white's; a rejected one leaves `currentTurn` as it was. -/
theorem turn_flips_exactly_on_accept (E : Chess Board Move) (s : GameState Board)
    (id : SocketId) (d : Option MoveData) :
    (moveAccepted E s id d = true →
      (s.currentTurn = Color.white → (makeMove E s id d).1.currentTurn = Color.black) ∧
      (s.currentTurn = Color.black → (makeMove E s id d).1.currentTurn = Color.white)) ∧
    (moveAccepted E s id d = false →
      (makeMove E s id d).1.currentTurn = s.currentTurn) := by
  rcases makeMove_outcome E s id d with ⟨hrej, b, msg, hres, _⟩ | ⟨hacc, d1, b, m, _, _, _, hres⟩
  · refine ⟨fun h => ?_, fun _ => ?_⟩
    · rw [hrej] at h; cases h
    · rw [hres]
  · refine ⟨fun _ => ⟨fun hw => ?_, fun hb => ?_⟩, fun h => ?_⟩
    · rw [hres]; simp [switchTurn, hw]
    · rw [hres]; simp [switchTurn, hb]
    · rw [hacc] at h; cases h

/-- Witness for C4: an accepted move at white's turn and a request out of turn. -/
theorem turn_flips_exactly_on_accept_witness :
    (moveAccepted toyChess twoSeated 1 e2e4 = true ∧
      twoSeated.currentTurn = Color.white ∧
      (makeMove toyChess twoSeated 1 e2e4).1.currentTurn = Color.black) ∧
    (moveAccepted toyChess twoSeated 2 e2e4 = false ∧
      (makeMove toyChess twoSeated 2 e2e4).1.currentTurn = twoSeated.currentTurn) :=
  ⟨⟨by decide, by decide,
      ((turn_flips_exactly_on_accept toyChess twoSeated 1 e2e4).1 (by decide)).1 (by decide)⟩,
    ⟨by decide, (turn_flips_exactly_on_accept toyChess twoSeated 2 e2e4).2 (by decide)⟩⟩

/-- C5: along every sequence of inbound messages from the initial state
`playerCount` stays between 0 and 2; and a join-game received while
`playerCount` is 2 makes exactly one call, game-full to the sender, and leaves
the whole state (the seats included) as it was. -/
theorem playerCount_range_and_join_when_full (E : Chess Board Move) :
    (∀ evs : List Inbound,
      0 ≤ (run E (initialState E) evs).playerCount ∧
      (run E (initialState E) evs).playerCount ≤ 2) ∧
    (∀ (s : GameState Board) (id : SocketId), s.playerCount = 2 →
      joinGame E s id = (s, [Out.toSocket Event.gameFull])) := by
  constructor
  · intro evs
    obtain ⟨h1, h2⟩ := countInv_run E evs
    exact ⟨le_trans (Int.ofNat_nonneg _) h1, h2⟩
  · intro s id h
    simp [joinGame, h]

/-- Witness for C5: a third connection joining the toy session with two seats. -/
theorem playerCount_range_and_join_when_full_witness :
    twoSeated.playerCount = 2 ∧
    joinGame toyChess twoSeated 3 = (twoSeated, [Out.toSocket Event.gameFull]) :=
  ⟨by decide, (playerCount_range_and_join_when_full toyChess).2 twoSeated 3 (by decide)⟩

/-- C6: a make-move request is rejected exactly when the sender holds no seat,
the game is not started, it is not the sender's turn, reading the payload
throws, or the engine refuses (null or exception).  A rejected request leaves
`players`, `playerCount`, `currentTurn` and `gameStarted` as they were and makes
exactly one call, a move-error to the sender.  When one of the three checks of
lines 86-97 fails the whole state, position included, is untouched and the
result does not depend on the engine. -/
theorem rejected_move_frame (E : Chess Board Move) (s : GameState Board)
    (id : SocketId) (d : Option MoveData) :
    (moveAccepted E s id d = false ↔
      (getPlayer s.players id = none ∨ s.gameStarted = false ∨
        (∃ p, getPlayer s.players id = some p ∧ p.color ≠ s.currentTurn) ∨
        d = none ∨
        ∃ d1 b, d = some d1 ∧ (E.move s.chess (moveArg d1) = (b, MoveResult.null) ∨
          E.move s.chess (moveArg d1) = (b, MoveResult.throws)))) ∧
    (moveAccepted E s id d = false →
      (makeMove E s id d).1.players = s.players ∧
      (makeMove E s id d).1.playerCount = s.playerCount ∧
      (makeMove E s id d).1.currentTurn = s.currentTurn ∧
      (makeMove E s id d).1.gameStarted = s.gameStarted ∧
      ∃ msg, (makeMove E s id d).2 = [Out.toSocket (Event.moveError msg)]) ∧
    ((getPlayer s.players id = none ∨ s.gameStarted = false ∨
        ∃ p, getPlayer s.players id = some p ∧ p.color ≠ s.currentTurn) →
      (makeMove E s id d).1 = s ∧
      ∀ E2 : Chess Board Move, makeMove E2 s id d = makeMove E s id d) := by
  refine ⟨⟨fun hrej => ?_, fun hcause => ?_⟩, fun hrej => ?_, fun hfail => ?_⟩
  · rcases authorized_or_not s id with ha | hp | hg | ⟨p, hp, _, hc⟩
    · cases d with
      | none => exact Or.inr (Or.inr (Or.inr (Or.inl rfl)))
      | some d1 =>
        rcases hm : E.move s.chess (moveArg d1) with ⟨b, r⟩
        cases r with
        | move m =>
          simp [moveAccepted, makeMove_move E s id d1 b m ha hm, isMoveMade] at hrej
        | null => exact Or.inr (Or.inr (Or.inr (Or.inr ⟨d1, b, rfl, Or.inl hm⟩)))
        | throws => exact Or.inr (Or.inr (Or.inr (Or.inr ⟨d1, b, rfl, Or.inr hm⟩)))
    · exact Or.inl hp
    · exact Or.inr (Or.inl hg)
    · exact Or.inr (Or.inr (Or.inl ⟨p, hp, hc⟩))
  · rcases makeMove_outcome E s id d with ⟨h, _⟩ | ⟨_, d1, b, m, hd, ⟨p, hp, hg, hc⟩, hm, _⟩
    · exact h
    · rcases hcause with h | h | ⟨q, hq, hqc⟩ | h | ⟨d2, b2, hd2, hm2⟩
      · rw [hp] at h; cases h
      · rw [hg] at h; cases h
      · rw [hp] at hq; cases hq; exact absurd hc hqc
      · rw [hd] at h; cases h
      · rw [hd] at hd2; cases hd2
        rcases hm2 with h2 | h2 <;> (rw [hm] at h2; cases h2)
  · rcases makeMove_outcome E s id d with ⟨_, b, msg, hres, _⟩ | ⟨hacc, _⟩
    · rw [hres]; exact ⟨rfl, rfl, rfl, rfl, msg, rfl⟩
    · rw [hacc] at hrej; cases hrej
  · rcases hfail with hp | hg | ⟨p, hp, hc⟩
    · exact ⟨by rw [makeMove_unseated E s id d hp],
        fun E2 => by rw [makeMove_unseated E s id d hp, makeMove_unseated E2 s id d hp]⟩
    · exact ⟨by rw [makeMove_notStarted E s id d hg],
        fun E2 => by rw [makeMove_notStarted E s id d hg, makeMove_notStarted E2 s id d hg]⟩
    · obtain hg | hg := Bool.eq_false_or_eq_true s.gameStarted
      · exact ⟨by rw [makeMove_notTurn E s id d p hp hg hc],
          fun E2 => by
            rw [makeMove_notTurn E s id d p hp hg hc, makeMove_notTurn E2 s id d p hp hg hc]⟩
      · exact ⟨by rw [makeMove_notStarted E s id d hg],
          fun E2 => by rw [makeMove_notStarted E s id d hg, makeMove_notStarted E2 s id d hg]⟩

/-- Witness for C6: a request out of turn, and a request the toy engine
refuses, both in the toy session with two seats. -/
theorem rejected_move_frame_witness :
    (moveAccepted toyChess twoSeated 1 e2e2 = false ∧
      (makeMove toyChess twoSeated 1 e2e2).1.players = twoSeated.players ∧
      (makeMove toyChess twoSeated 1 e2e2).1.playerCount = twoSeated.playerCount ∧
      (makeMove toyChess twoSeated 1 e2e2).1.currentTurn = twoSeated.currentTurn ∧
      (makeMove toyChess twoSeated 1 e2e2).1.gameStarted = twoSeated.gameStarted ∧
      ∃ msg, (makeMove toyChess twoSeated 1 e2e2).2 = [Out.toSocket (Event.moveError msg)]) ∧
    ((∃ p, getPlayer twoSeated.players 2 = some p ∧ p.color ≠ twoSeated.currentTurn) ∧
      (makeMove toyChess twoSeated 2 e2e4).1 = twoSeated) :=
  ⟨⟨by decide, (rejected_move_frame toyChess twoSeated 1 e2e2).2.1 (by decide)⟩,
    ⟨⟨{ color := Color.black, id := 2 }, by decide, by decide⟩,
      ((rejected_move_frame toyChess twoSeated 2 e2e4).2.2
        (Or.inr (Or.inr ⟨{ color := Color.black, id := 2 }, by decide, by decide⟩))).1⟩⟩

/-- C7: whatever the state and whoever asks, new-game leaves the session equal
to the initial one and makes one call, game-reset to the room; a second
new-game changes nothing more. -/
theorem newGame_resets_and_is_idempotent (E : Chess Board Move) (s : GameState Board)
    (id id2 : SocketId) :
    newGame E s id = (initialState E, [Out.toRoom Event.gameReset]) ∧
    (initialState E).players = [] ∧ (initialState E).playerCount = 0 ∧
    (initialState E).currentTurn = Color.white ∧ (initialState E).gameStarted = false ∧
    (initialState E).chess = E.create ∧
    (newGame E (newGame E s id).1 id2).1 = (newGame E s id).1 :=
  ⟨rfl, rfl, rfl, rfl, rfl, rfl, rfl⟩

/-- C8 as stated fails under its two engine assumptions alone (white moves
first, an accepted move changes the side to move).  `silentMateChess` meets
both, and in a reachable state its accepted mating move makes the move-made
call only, without game-over, because the engine does not report the game
over.  `flipOnRefusalChess` meets both as well, and after a refused request of
white the accepted mating move of white (connection 1) is followed by
game-over with result black. -/
theorem checkmate_two_assumptions_counterexample :
    (silentMateChess.turn silentMateChess.create = Side.w ∧
      (∀ b a b2 m, silentMateChess.move b a = (b2, MoveResult.move m) →
        silentMateChess.turn b2 ≠ silentMateChess.turn b) ∧
      Reachable silentMateChess silentBeforeMate ∧
      moveAccepted silentMateChess silentBeforeMate 2 e2e4 = true ∧
      silentMateChess.isCheckmate (makeMove silentMateChess silentBeforeMate 2 e2e4).1.chess =
        true ∧
      getPlayer silentBeforeMate.players 2 = some { color := Color.black, id := 2 } ∧
      (makeMove silentMateChess silentBeforeMate 2 e2e4).2 =
        [Out.toRoom (Event.moveMade { from_ := "e2", to_ := "e4", promotion := "q" } "mmmm"
          Color.white false true true false)]) ∧
    (flipOnRefusalChess.turn flipOnRefusalChess.create = Side.w ∧
      (∀ b a b2 m, flipOnRefusalChess.move b a = (b2, MoveResult.move m) →
        flipOnRefusalChess.turn b2 ≠ flipOnRefusalChess.turn b) ∧
      Reachable flipOnRefusalChess afterRefusal ∧
      moveAccepted flipOnRefusalChess afterRefusal 1 e2e4 = true ∧
      flipOnRefusalChess.isCheckmate (makeMove flipOnRefusalChess afterRefusal 1 e2e4).1.chess =
        true ∧
      getPlayer afterRefusal.players 1 = some { color := Color.white, id := 1 } ∧
      (makeMove flipOnRefusalChess afterRefusal 1 e2e4).2 =
        [Out.toRoom (Event.moveMade { from_ := "e2", to_ := "e4", promotion := "q" } "mm"
          Color.black true true true false),
         Out.toRoom (Event.gameOver (GameResult.winner Color.black) Reason.checkmate)]) :=
  ⟨⟨rfl, silentMateChess_turn_move, ⟨_, rfl⟩, by decide, by decide, by decide, by decide⟩,
    ⟨rfl, flipOnRefusalChess_turn_move, ⟨_, rfl⟩, by decide, by decide, by decide, by decide⟩⟩

/-- C8 (amended): in a reachable state, for an engine that starts with white
to move, changes the side to move on every accepted move, keeps it on every
refused call and reports the game over whenever it reports checkmate, an
accepted move after which the engine reports checkmate makes exactly two
calls, both to the room: move-made carrying isCheckmate = true, then game-over
whose result is the colour of the seat of the sender and whose reason is
checkmate. -/
theorem checkmate_winner_is_mover (E : Chess Board Move) (hE : Lawful E)
    (s : GameState Board) (hs : Reachable E s) (id : SocketId) (d : Option MoveData)
    (hacc : moveAccepted E s id d = true)
    (hmate : E.isCheckmate (makeMove E s id d).1.chess = true) :
    ∃ p m, getPlayer s.players id = some p ∧
      (makeMove E s id d).2 =
        [Out.toRoom (Event.moveMade m (E.fen (makeMove E s id d).1.chess)
            (makeMove E s id d).1.currentTurn (E.isGameOver (makeMove E s id d).1.chess)
            (E.inCheck (makeMove E s id d).1.chess) true
            (E.isDraw (makeMove E s id d).1.chess)),
         Out.toRoom (Event.gameOver (GameResult.winner p.color) Reason.checkmate)] := by
  rcases makeMove_outcome E s id d with ⟨hrej, _⟩ | ⟨_, d1, b, m, _, ⟨p, hp, _, hc⟩, hm, hres⟩
  · rw [hrej] at hacc; cases hacc
  · rw [hres] at hmate ⊢
    have hmate2 : E.isCheckmate b = true := hmate
    have hover : E.isGameOver b = true := hE.checkmate_gameOver b hmate2
    have hagree : s.currentTurn = Color.white ↔ E.turn s.chess = Side.w :=
      turnAgrees_reachable E hE.turnLawful s hs
    have hne : E.turn b ≠ E.turn s.chess := hE.turn_move s.chess _ b m hm
    have hwin : (if E.turn b = Side.w then Color.black else Color.white) = p.color := by
      rw [hc]
      cases hct : s.currentTurn <;> cases h1 : E.turn s.chess <;> cases h2 : E.turn b <;>
        simp_all
    refine ⟨p, m, hp, ?_⟩
    simp [hover, hmate2, gameOverEvent, hwin]

/-- Witness for C8 (amended): black's second move mates in the toy engine. -/
theorem checkmate_winner_is_mover_witness :
    Reachable toyChess beforeMate ∧
    moveAccepted toyChess beforeMate 2 e2e4 = true ∧
    toyChess.isCheckmate (makeMove toyChess beforeMate 2 e2e4).1.chess = true ∧
    ∃ p m, getPlayer beforeMate.players 2 = some p ∧
      (makeMove toyChess beforeMate 2 e2e4).2 =
        [Out.toRoom (Event.moveMade m (toyChess.fen (makeMove toyChess beforeMate 2 e2e4).1.chess)
            (makeMove toyChess beforeMate 2 e2e4).1.currentTurn
            (toyChess.isGameOver (makeMove toyChess beforeMate 2 e2e4).1.chess)
            (toyChess.inCheck (makeMove toyChess beforeMate 2 e2e4).1.chess) true
            (toyChess.isDraw (makeMove toyChess beforeMate 2 e2e4).1.chess)),
         Out.toRoom (Event.gameOver (GameResult.winner p.color) Reason.checkmate)] :=
  ⟨⟨_, rfl⟩, by decide, by decide,
    checkmate_winner_is_mover toyChess toyChess_lawful beforeMate ⟨_, rfl⟩ 2 e2e4
      (by decide) (by decide)⟩

/-- C9 (fails on the code): connections 1 (white) and 2 (black) are seated; 1
disconnects and the new connection 3 joins.  The colour sent to 3 in
player-assigned is black, not the white that 1 vacated; `gameStarted` is true
again and both remaining seats are black. -/
theorem rejoin_after_white_leaves_gets_black (E : Chess Board Move) :
    getPlayer (run E (initialState E) [Inbound.joinGame 1, Inbound.joinGame 2]).players 1 =
      some { color := Color.white, id := 1 } ∧
    getPlayer (run E (initialState E) [Inbound.joinGame 1, Inbound.joinGame 2]).players 2 =
      some { color := Color.black, id := 2 } ∧
    joinGame E
        (disconnect E (run E (initialState E) [Inbound.joinGame 1, Inbound.joinGame 2]) 1).1 3 =
      ({ chess := E.create,
         players := [(2, { color := Color.black, id := 2 }), (3, { color := Color.black, id := 3 })],
         playerCount := 2, currentTurn := Color.white, gameStarted := true },
       [Out.joinRoom,
        Out.toSocket (Event.playerAssigned Color.black (E.fen E.create) Color.white 2 true),
        Out.toRoom (Event.gameStart (E.fen E.create) Color.white),
        Out.toRoom (Event.playerCountUpdate 2 true)]) :=
  ⟨rfl, rfl, rfl⟩

/-- C10 (fails on the code): connection 1 joins twice and then disconnects.
It was the only seated connection and `players` is empty afterwards, yet the
counter is 1, no reset runs, and the state differs from the initial one. -/
theorem last_leaver_after_double_join_not_reset (E : Chess Board Move) :
    Reachable E (run E (initialState E) [Inbound.joinGame 1, Inbound.joinGame 1]) ∧
    getPlayer (run E (initialState E) [Inbound.joinGame 1, Inbound.joinGame 1]).players 1 =
      some { color := Color.black, id := 1 } ∧
    disconnect E (run E (initialState E) [Inbound.joinGame 1, Inbound.joinGame 1]) 1 =
      ({ chess := E.create, players := [], playerCount := 1, currentTurn := Color.white,
         gameStarted := false },
       [Out.toRoom (Event.playerDisconnected 1 false)]) ∧
    (disconnect E (run E (initialState E) [Inbound.joinGame 1, Inbound.joinGame 1]) 1).1 ≠
      initialState E := by
  refine ⟨⟨_, rfl⟩, rfl, rfl, ?_⟩
  intro h
  have h2 : (1 : Int) = 0 := congrArg GameState.playerCount h
  exact absurd h2 (by decide)

/-- C11: in every state reachable from the initial state, `gameStarted` being
true implies that `playerCount` is 2. -/
theorem started_implies_two_counted (E : Chess Board Move) (s : GameState Board)
    (hs : Reachable E s) (hg : s.gameStarted = true) : s.playerCount = 2 :=
  startedInv_reachable E s hs hg

/-- Witness for C11: the toy session with two seats. -/
theorem started_implies_two_counted_witness :
    Reachable toyChess twoSeated ∧ twoSeated.gameStarted = true ∧ twoSeated.playerCount = 2 :=
  ⟨⟨_, rfl⟩, by decide,
    started_implies_two_counted toyChess twoSeated ⟨_, rfl⟩ (by decide)⟩

/-- C12: when `playerCount` is 2 and a seated connection disconnects, the
counter becomes 1 and `gameStarted` false, position and turn are kept, every
other connection keeps its entry, the single call is player-disconnected with
count 1 and started false to the room, and after any further messages that
contain no join-game every make-move request is rejected. -/
theorem disconnect_of_two_freezes (E : Chess Board Move) (s : GameState Board)
    (id : SocketId) (p : Player) (hcount : s.playerCount = 2)
    (hseat : getPlayer s.players id = some p) :
    (disconnect E s id).1.playerCount = 1 ∧
    (disconnect E s id).1.gameStarted = false ∧
    (disconnect E s id).1.chess = s.chess ∧
    (disconnect E s id).1.currentTurn = s.currentTurn ∧
    (∀ k, k ≠ id → getPlayer (disconnect E s id).1.players k = getPlayer s.players k) ∧
    (disconnect E s id).2 = [Out.toRoom (Event.playerDisconnected 1 false)] ∧
    (∀ (evs : List Inbound) (k : SocketId) (d : Option MoveData),
      evs.all (fun ev => !isJoin ev) = true →
      moveAccepted E (run E (disconnect E s id).1 evs) k d = false) := by
  have hres : disconnect E s id =
      ({ s with players := deletePlayer s.players id, playerCount := 1, gameStarted := false },
        [Out.toRoom (Event.playerDisconnected 1 false)]) := by
    simp [disconnect, hseat, hcount]
  rw [hres]
  refine ⟨rfl, rfl, rfl, rfl, fun k hk => getPlayer_deletePlayer_ne s.players id k hk, rfl, ?_⟩
  intro evs k d hall
  have hfrozen := notStarted_run E evs
    { s with players := deletePlayer s.players id, playerCount := 1, gameStarted := false }
    hall rfl
  simp [moveAccepted, makeMove_notStarted E _ k d hfrozen, isMoveMade]

/-- Witness for C12: connection 1 leaves the toy session with two seats. -/
theorem disconnect_of_two_freezes_witness :
    twoSeated.playerCount = 2 ∧
    getPlayer twoSeated.players 1 = some { color := Color.white, id := 1 } ∧
    (disconnect toyChess twoSeated 1).1.playerCount = 1 ∧
    (disconnect toyChess twoSeated 1).1.gameStarted = false ∧
    getPlayer (disconnect toyChess twoSeated 1).1.players 2 =
      some { color := Color.black, id := 2 } ∧
    moveAccepted toyChess
      (run toyChess (disconnect toyChess twoSeated 1).1 [Inbound.makeMove 2 e2e4]) 2 e2e4 =
        false :=
  have h := disconnect_of_two_freezes toyChess twoSeated 1 { color := Color.white, id := 1 }
    (by decide) (by decide)
  ⟨by decide, by decide, h.1, h.2.1, (h.2.2.2.2.1 2 (by decide)).trans (by decide),
    h.2.2.2.2.2.2 [Inbound.makeMove 2 e2e4] 2 e2e4 (by decide)⟩

/-- C13 as stated fails: in the toy session the move of connection 2 is
accepted and the engine reports checkmate, yet `gameStarted` is still true and
the next request of connection 1 passes the checks of lines 86-97: the refusal
it gets is the one of the engine, and a request the engine takes is accepted. -/
theorem started_after_checkmate_counterexample :
    moveAccepted toyChess beforeMate 2 e2e4 = true ∧
    toyChess.isCheckmate afterMate.chess = true ∧
    toyChess.isGameOver afterMate.chess = true ∧
    afterMate.gameStarted = true ∧
    makeMove toyChess afterMate 1 e2e2 =
      (afterMate, [Out.toSocket (Event.moveError "Invalid move")]) ∧
    moveAccepted toyChess afterMate 1 e2e4 = true := by
  decide

/-- C13 (amended): an accepted move leaves `gameStarted` true whatever the
engine reports; when it reports the game over, game-over is broadcast after
move-made, and nothing else records it: a later request from a seated
connection whose colour is the turn is accepted exactly when the engine
returns a move for it. -/
theorem terminal_move_keeps_started (E : Chess Board Move) (s : GameState Board)
    (id : SocketId) (d : Option MoveData) (hacc : moveAccepted E s id d = true) :
    (makeMove E s id d).1.gameStarted = true ∧
    (E.isGameOver (makeMove E s id d).1.chess = true →
      ∃ made, (makeMove E s id d).2 =
        [made, Out.toRoom (gameOverEvent E (makeMove E s id d).1.chess)]) ∧
    (∀ (k : SocketId) (q : Player) (d2 : MoveData),
      getPlayer (makeMove E s id d).1.players k = some q →
      q.color = (makeMove E s id d).1.currentTurn →
      (moveAccepted E (makeMove E s id d).1 k (some d2) = true ↔
        ∃ b m, E.move (makeMove E s id d).1.chess (moveArg d2) = (b, MoveResult.move m))) := by
  rcases makeMove_outcome E s id d with ⟨hrej, _⟩ | ⟨_, d1, b, m, _, ⟨p, _, hg, _⟩, _, hres⟩
  · rw [hrej] at hacc; cases hacc
  · rw [hres]
    refine ⟨hg, fun hover => ?_, fun k q d2 hq hcol => ?_⟩
    · have hover2 : E.isGameOver b = true := hover
      exact ⟨Out.toRoom (Event.moveMade m (E.fen b) (switchTurn s.currentTurn) (E.isGameOver b)
        (E.inCheck b) (E.isCheckmate b) (E.isDraw b)), by simp [hover2]⟩
    · have hauth : Authorized
          ({ s with chess := b, currentTurn := switchTurn s.currentTurn } : GameState Board) k :=
        ⟨q, hq, hg, hcol⟩
      constructor
      · intro h2
        rcases makeMove_outcome E
            ({ s with chess := b, currentTurn := switchTurn s.currentTurn } : GameState Board)
            k (some d2) with ⟨hrej2, _⟩ | ⟨_, d3, b3, m3, hd3, _, hm3, _⟩
        · rw [hrej2] at h2; cases h2
        · cases hd3
          exact ⟨b3, m3, hm3⟩
      · rintro ⟨b3, m3, hm3⟩
        simp [moveAccepted, makeMove_move E _ k d2 b3 m3 hauth hm3, isMoveMade]

/-- Witness for C13 (amended): the mating move in the toy session. -/
theorem terminal_move_keeps_started_witness :
    moveAccepted toyChess beforeMate 2 e2e4 = true ∧
    (makeMove toyChess beforeMate 2 e2e4).1.gameStarted = true :=
  ⟨by decide, (terminal_move_keeps_started toyChess beforeMate 2 e2e4 (by decide)).1⟩

/-- C14: from the initial session (which is also what a reset leaves), two
distinct connections joining in order get white and then black in
player-assigned; the first join makes no game-start call, the second sets
`gameStarted` and broadcasts game-start with the position and the turn; and
every join accepted in any state ends with a player-count-update broadcast
carrying the new counter and flag. -/
theorem two_joins_white_then_black (E : Chess Board Move) (a b : SocketId) (hab : a ≠ b) :
    (∀ s : GameState Board, resetGame E s = initialState E) ∧
    joinGame E (initialState E) a =
      ({ chess := E.create, players := [(a, { color := Color.white, id := a })],
         playerCount := 1, currentTurn := Color.white, gameStarted := false },
       [Out.joinRoom,
        Out.toSocket (Event.playerAssigned Color.white (E.fen E.create) Color.white 1 false),
        Out.toRoom (Event.playerCountUpdate 1 false)]) ∧
    joinGame E (joinGame E (initialState E) a).1 b =
      ({ chess := E.create,
         players := [(a, { color := Color.white, id := a }), (b, { color := Color.black, id := b })],
         playerCount := 2, currentTurn := Color.white, gameStarted := true },
       [Out.joinRoom,
        Out.toSocket (Event.playerAssigned Color.black (E.fen E.create) Color.white 2 true),
        Out.toRoom (Event.gameStart (E.fen E.create) Color.white),
        Out.toRoom (Event.playerCountUpdate 2 true)]) ∧
    (∀ (s : GameState Board) (id : SocketId), s.playerCount < 2 →
      ∃ pre, (joinGame E s id).2 =
        pre ++ [Out.toRoom (Event.playerCountUpdate (joinGame E s id).1.playerCount
          (joinGame E s id).1.gameStarted)]) := by
  refine ⟨fun _ => rfl, rfl, ?_, ?_⟩
  · have h1 : joinGame E (initialState E) a =
        ({ chess := E.create, players := [(a, { color := Color.white, id := a })],
           playerCount := 1, currentTurn := Color.white, gameStarted := false },
         [Out.joinRoom,
          Out.toSocket (Event.playerAssigned Color.white (E.fen E.create) Color.white 1 false),
          Out.toRoom (Event.playerCountUpdate 1 false)]) := rfl
    rw [h1]
    simp [joinGame, setPlayer, hab]
  · intro s id hlt
    have hfull : ¬ s.playerCount ≥ 2 := by omega
    unfold joinGame
    simp only [hfull, if_false]
    split
    · exact ⟨[Out.joinRoom, _, _], rfl⟩
    · exact ⟨[Out.joinRoom, _], rfl⟩

/-- Witness for C14: connections 1 and 2 join the toy session. -/
theorem two_joins_white_then_black_witness :
    joinGame toyChess (joinGame toyChess (initialState toyChess) 1).1 2 =
      ({ chess := toyChess.create,
         players := [(1, { color := Color.white, id := 1 }), (2, { color := Color.black, id := 2 })],
         playerCount := 2, currentTurn := Color.white, gameStarted := true },
       [Out.joinRoom,
        Out.toSocket
          (Event.playerAssigned Color.black (toyChess.fen toyChess.create) Color.white 2 true),
        Out.toRoom (Event.gameStart (toyChess.fen toyChess.create) Color.white),
        Out.toRoom (Event.playerCountUpdate 2 true)]) :=
  (two_joins_white_then_black toyChess 1 2 (by decide)).2.2.1

/-- C15 as stated fails: in the toy session with two seats the game is
started and connection 1 holds white at white's turn, yet its request is
rejected because the engine refuses the move. -/
theorem authorized_move_refused_counterexample :
    twoSeated.gameStarted = true ∧
    getPlayer twoSeated.players 1 = some { color := Color.white, id := 1 } ∧
    twoSeated.currentTurn = Color.white ∧
    moveAccepted toyChess twoSeated 1 e2e2 = false ∧
    makeMove toyChess twoSeated 1 e2e2 =
      (twoSeated, [Out.toSocket (Event.moveError "Invalid move")]) := by
  decide

/-- C15 (amended): a make-move request is accepted if and only if the game
is started, the sender holds a seat whose colour is the current turn, the
payload can be read, and the engine returns a move for it. -/
theorem accepted_iff_authorized_and_engine_accepts (E : Chess Board Move)
    (s : GameState Board) (id : SocketId) (d : Option MoveData) :
    moveAccepted E s id d = true ↔
      (s.gameStarted = true ∧
        (∃ p, getPlayer s.players id = some p ∧ p.color = s.currentTurn) ∧
        ∃ d1 b m, d = some d1 ∧ E.move s.chess (moveArg d1) = (b, MoveResult.move m)) := by
  constructor
  · intro hacc
    rcases makeMove_outcome E s id d with ⟨hrej, _⟩ | ⟨_, d1, b, m, hd, ⟨p, hp, hg, hc⟩, hm, _⟩
    · rw [hrej] at hacc; cases hacc
    · exact ⟨hg, ⟨p, hp, hc⟩, d1, b, m, hd, hm⟩
  · rintro ⟨hg, ⟨p, hp, hc⟩, d1, b, m, hd, hm⟩
    subst hd
    simp [moveAccepted, makeMove_move E s id d1 b m ⟨p, hp, hg, hc⟩ hm, isMoveMade]

/-- C16: an accepted move after which the engine reports the game over but
not checkmate makes two calls to the room, move-made and then game-over with
result draw; an accepted move after which the engine does not report the game
over makes the move-made call only. -/
theorem draw_and_in_progress_outcomes (E : Chess Board Move) (s : GameState Board)
    (id : SocketId) (d : Option MoveData) (hacc : moveAccepted E s id d = true) :
    (E.isGameOver (makeMove E s id d).1.chess = true →
      E.isCheckmate (makeMove E s id d).1.chess = false →
      ∃ made, isMoveMade made = true ∧
        (makeMove E s id d).2 =
          [made, Out.toRoom (Event.gameOver GameResult.draw
            (if E.isDraw (makeMove E s id d).1.chess then Reason.draw else Reason.gameOver))]) ∧
    (E.isGameOver (makeMove E s id d).1.chess = false →
      ∃ made, isMoveMade made = true ∧ (makeMove E s id d).2 = [made]) := by
  rcases makeMove_outcome E s id d with ⟨hrej, _⟩ | ⟨_, d1, b, m, _, _, _, hres⟩
  · rw [hrej] at hacc; cases hacc
  · rw [hres]
    refine ⟨fun hover hmate => ?_, fun hover => ?_⟩
    · have hover2 : E.isGameOver b = true := hover
      have hmate2 : E.isCheckmate b = false := hmate
      refine ⟨Out.toRoom (Event.moveMade m (E.fen b) (switchTurn s.currentTurn) (E.isGameOver b)
        (E.inCheck b) (E.isCheckmate b) (E.isDraw b)), rfl, ?_⟩
      simp [hover2, hmate2, gameOverEvent]
    · have hover2 : E.isGameOver b = false := hover
      refine ⟨Out.toRoom (Event.moveMade m (E.fen b) (switchTurn s.currentTurn) (E.isGameOver b)
        (E.inCheck b) (E.isCheckmate b) (E.isDraw b)), rfl, ?_⟩
      simp [hover2]

/-- Witness for C16: the drawing sixth move and the opening move in the toy
session. -/
theorem draw_and_in_progress_outcomes_witness :
    (moveAccepted toyChess beforeDraw 2 e2e4 = true ∧
      ∃ made, isMoveMade made = true ∧
        (makeMove toyChess beforeDraw 2 e2e4).2 =
          [made, Out.toRoom (Event.gameOver GameResult.draw
            (if toyChess.isDraw (makeMove toyChess beforeDraw 2 e2e4).1.chess
              then Reason.draw else Reason.gameOver))]) ∧
    (moveAccepted toyChess twoSeated 1 e2e4 = true ∧
      ∃ made, isMoveMade made = true ∧ (makeMove toyChess twoSeated 1 e2e4).2 = [made]) :=
  ⟨⟨by decide,
      (draw_and_in_progress_outcomes toyChess beforeDraw 2 e2e4 (by decide)).1
        (by decide) (by decide)⟩,
    ⟨by decide,
      (draw_and_in_progress_outcomes toyChess twoSeated 1 e2e4 (by decide)).2 (by decide)⟩⟩

/-- C17: the disconnect of a connection that holds no seat leaves the state
as it was and makes no call; repeated any number of times it still changes
nothing. -/
theorem disconnect_unseated_is_noop (E : Chess Board Move) (s : GameState Board)
    (id : SocketId) (h : getPlayer s.players id = none) :
    disconnect E s id = (s, []) ∧
    ∀ n : Nat, run E s (List.replicate n (Inbound.disconnect id)) = s := by
  have h1 : disconnect E s id = (s, []) := by simp [disconnect, h]
  refine ⟨h1, fun n => ?_⟩
  induction n with
  | zero => rfl
  | succ n ih =>
    simp only [List.replicate_succ, run, handle, h1]
    exact ih

/-- Witness for C17: connection 3 never joined the toy session with two seats. -/
theorem disconnect_unseated_is_noop_witness :
    getPlayer twoSeated.players 3 = none ∧
    disconnect toyChess twoSeated 3 = (twoSeated, []) :=
  ⟨by decide, (disconnect_unseated_is_noop toyChess twoSeated 3 (by decide)).1⟩

/-- C18: in a reachable state, for every inbound message, every session field
carried by a call the handler makes (position string, turn, counter, started
flag, and the position flags of move-made) equals that field in the state the
handler leaves; in particular the flag sent in player-assigned is the
`gameStarted` of the state after the join. -/
theorem outputs_reflect_final_state (E : Chess Board Move) (s : GameState Board)
    (hs : Reachable E s) (ev : Inbound) :
    (∀ o ∈ (handle E s ev).2, Out.reflects E (handle E s ev).1 o) ∧
    (∀ (id : SocketId) (c : Color) (fen : String) (t : Color) (n : Int) (g : Bool),
      ev = Inbound.joinGame id →
      Out.toSocket (Event.playerAssigned c fen t n g) ∈ (handle E s ev).2 →
      g = (handle E s ev).1.gameStarted) := by
  have hall : ∀ o ∈ (handle E s ev).2, Out.reflects E (handle E s ev).1 o := by
    cases ev with
    | joinGame id =>
      have hinv := startedInv_reachable E s hs
      simp only [handle, joinGame]
      by_cases hfull : s.playerCount ≥ 2
      · simp [hfull, Out.reflects, Event.reflects]
      · simp only [hfull, if_false]
        by_cases h2 : s.playerCount + 1 = 2
        · simp [h2, Out.reflects, Event.reflects]
        · have hg : s.gameStarted = false := by
            cases hgs : s.gameStarted with
            | false => rfl
            | true => have := hinv hgs; omega
          simp [h2, hg, Out.reflects, Event.reflects]
    | makeMove id d =>
      simp only [handle]
      rcases makeMove_outcome E s id d with ⟨_, b, msg, hres, _⟩ | ⟨_, d1, b, m, _, _, _, hres⟩
      · rw [hres]; simp [Out.reflects, Event.reflects]
      · rw [hres]
        by_cases hover : E.isGameOver b = true
        · simp [hover, Out.reflects, Event.reflects, gameOverEvent]
        · simp [hover, Out.reflects, Event.reflects]
    | newGame id => simp [handle, newGame, Out.reflects, Event.reflects]
    | disconnect id =>
      simp only [handle, disconnect]
      cases hp : getPlayer s.players id with
      | none => simp
      | some p =>
        by_cases h0 : s.playerCount - 1 = 0
        · simp [h0]
        · simp [h0, Out.reflects, Event.reflects]
  refine ⟨hall, fun id c fen t n g _ hmem => ?_⟩
  exact (hall _ hmem).2.2.2

/-- Witness for C18: the second join of the toy session. -/
theorem outputs_reflect_final_state_witness :
    Reachable toyChess oneSeated ∧
    Out.toSocket (Event.playerAssigned Color.black "" Color.white 2 true) ∈
      (handle toyChess oneSeated (Inbound.joinGame 2)).2 ∧
    true = (handle toyChess oneSeated (Inbound.joinGame 2)).1.gameStarted :=
  ⟨⟨_, rfl⟩, by decide,
    (outputs_reflect_final_state toyChess oneSeated ⟨_, rfl⟩ (Inbound.joinGame 2)).2
      2 Color.black "" Color.white 2 true rfl (by decide)⟩

/-- C19: for an engine that starts with white to move, changes the side to
move on every accepted move and keeps it on every refused call, in every
reachable state `currentTurn` is white exactly when the side to move of the
position is white; and join-game and disconnect keep this agreement from any
state that has it. -/
theorem turn_field_agrees_with_engine (E : Chess Board Move) (hE : TurnLawful E) :
    (∀ s : GameState Board, Reachable E s →
      (s.currentTurn = Color.white ↔ E.turn s.chess = Side.w)) ∧
    (∀ (s : GameState Board) (id : SocketId),
      (s.currentTurn = Color.white ↔ E.turn s.chess = Side.w) →
      ((joinGame E s id).1.currentTurn = Color.white ↔
          E.turn (joinGame E s id).1.chess = Side.w) ∧
      ((disconnect E s id).1.currentTurn = Color.white ↔
          E.turn (disconnect E s id).1.chess = Side.w)) :=
  ⟨fun s hs => turnAgrees_reachable E hE s hs,
    fun s id h => ⟨turnAgrees_handle E hE s (Inbound.joinGame id) h,
      turnAgrees_disconnect E hE s id h⟩⟩

/-- Witness for C19: the toy session after three moves has black to move. -/
theorem turn_field_agrees_with_engine_witness :
    Reachable toyChess beforeMate ∧
    (beforeMate.currentTurn = Color.white ↔ toyChess.turn beforeMate.chess = Side.w) :=
  ⟨⟨_, rfl⟩,
    (turn_field_agrees_with_engine toyChess toyChess_lawful.turnLawful).1 beforeMate ⟨_, rfl⟩⟩

end Claims
end ChessServer
